import Mathlib

/-!
Verification of the Edge Request Router (API gateway) of the captcha
platform: a shallow embedding of the gateway middleware chain
(`internal/middleware`), the reverse proxy (`internal/proxy`), the proxy
handlers (`internal/handlers`) and the configuration loader
(`internal/config/config.go`), together with theorems settling the frozen
claims about authentication, rate limiting, correlation ids, security
headers, header forwarding, body handling, path preservation and
configuration defaults.

Headers are modelled as total functions from header name to value, with
the empty string standing for an absent header (this matches Go's
`http.Header.Get`, which returns "" for a missing key, and `gin.GetHeader`
which wraps it).  The gin per-request key/value store is modelled as a
function to `Option String`.  Paths are modelled as character lists so
that the prefix arithmetic of `strings.TrimPrefix` can be reasoned about
structurally.
-/

/-- A header map, as read through Go's case-canonical `Header.Get`:
absent keys read as the empty string. -/
def Headers : Type := String → String

/-- The empty header map (a fresh `http.Request` / response writer). -/
def emptyHeaders : Headers := fun _ => ""

/-- `http.Header.Set` / `gin.Context.Header`: replace the value stored
under a key. -/
def setH (hs : Headers) (k v : String) : Headers :=
  fun k2 => if k2 = k then v else hs k2

/-- Read a header value (absent reads as ""). -/
def getH (hs : Headers) (k : String) : String := hs k

/-- An HTTP request as the gateway sees it: method, URL path, raw query
string, headers and body bytes. -/
structure Request where
  method : String
  path : List Char
  rawQuery : String
  headers : Headers
  body : List Nat

/-- The per-request gin context state threaded through the middleware
chain, extended with the observable effects the claims talk about: the
response status / JSON error body, the abort flag, and the upstream
request built by the proxy (if any was issued). -/
structure Ctx where
  req : Request
  clientIP : String
  production : Bool
  respHeaders : Headers
  keysCtx : String → Option String
  respStatus : Nat
  respErr : String
  respMsg : String
  aborted : Bool
  upstream : Option Request

/-- Initial context for an inbound request. -/
def mkCtx (req : Request) (ip : String) (production : Bool) : Ctx :=
  { req := req, clientIP := ip, production := production,
    respHeaders := emptyHeaders, keysCtx := fun _ => none,
    respStatus := 0, respErr := "", respMsg := "",
    aborted := false, upstream := none }

/-- `c.Set k v` on the gin context. -/
def setKey (ks : String → Option String) (k v : String) : String → Option String :=
  fun k2 => if k2 = k then some v else ks k2

/-- `c.GetString k` on the gin context ("" when the key is absent). -/
def getStr (ks : String → Option String) (k : String) : String :=
  (ks k).getD ""

/-- `c.AbortWithStatusJSON status {"error": err, "message": msg}`. -/
def abortJSON (c : Ctx) (status : Nat) (err msg : String) : Ctx :=
  { c with respStatus := status, respErr := err, respMsg := msg, aborted := true }

/-- Run a gin handler chain: once a middleware aborts, the remaining
handlers do not run (`c.Next` is never reached past an abort). -/
def runChain (stages : List (Ctx → Ctx)) (c : Ctx) : Ctx :=
  stages.foldl (fun c2 f => if c2.aborted then c2 else f c2) c

/-! ## middleware.RequestID -/

/-- `middleware.RequestID`: take the inbound `X-Request-ID` if non-empty,
otherwise a freshly generated UUID string (modelled as the parameter
`fresh`); store it under the context key `request_id` and set it on the
response. -/
def RequestID (fresh : String) (c : Ctx) : Ctx :=
  let requestID :=
    if getH c.req.headers "X-Request-ID" = "" then fresh
    else getH c.req.headers "X-Request-ID"
  { c with keysCtx := setKey c.keysCtx "request_id" requestID,
           respHeaders := setH c.respHeaders "X-Request-ID" requestID }

/-! ## middleware.CORS -/

/-- `middleware.CORS`: mirror an allowed Origin, set the fixed CORS
response headers, and short-circuit OPTIONS preflights with 204.
`methodsJoined`/`headersJoined` are the pre-joined configured lists. -/
def CORS (allowedOrigins : List String) (methodsJoined headersJoined : String)
    (c : Ctx) : Ctx :=
  let origin := getH c.req.headers "Origin"
  let allowed := allowedOrigins.any (fun a => a = "*" || a = origin)
  let h1 :=
    if allowed ∧ origin ≠ "" then
      setH c.respHeaders "Access-Control-Allow-Origin" origin
    else c.respHeaders
  let h2 := setH h1 "Access-Control-Allow-Methods" methodsJoined
  let h3 := setH h2 "Access-Control-Allow-Headers" headersJoined
  let h4 := setH h3 "Access-Control-Allow-Credentials" "true"
  let h5 := setH h4 "Access-Control-Max-Age" "86400"
  if c.req.method = "OPTIONS" then
    { c with respHeaders := h5, respStatus := 204, aborted := true }
  else
    { c with respHeaders := h5 }

/-! ## middleware.SecurityHeaders -/

/-- `middleware.SecurityHeaders`: the four fixed security headers, plus
HSTS when gin runs in release mode (which `main` selects exactly when the
configured environment is "production"). -/
def SecurityHeaders (c : Ctx) : Ctx :=
  let h1 := setH c.respHeaders "X-Content-Type-Options" "nosniff"
  let h2 := setH h1 "X-Frame-Options" "DENY"
  let h3 := setH h2 "X-XSS-Protection" "1; mode=block"
  let h4 := setH h3 "Referrer-Policy" "strict-origin-when-cross-origin"
  let h5 :=
    if c.production then
      setH h4 "Strict-Transport-Security" "max-age=31536000; includeSubDomains"
    else h4
  { c with respHeaders := h5 }

/-! ## middleware.AuthRequired and validateJWT -/

/-- The gateway's JWT claims record. -/
structure JWTClaims where
  userID : Nat
  email : String
  role : String
  deriving Repr, DecidableEq

/-- Go's `strings.Split` on a one-character separator, on the character
level: `Split("", sep) = [""]`, and each separator occurrence starts a
new segment. -/
def splitOnChar (sep : Char) : List Char → List (List Char)
  | [] => [[]]
  | c :: cs =>
    let rest := splitOnChar sep cs
    if c = sep then [] :: rest
    else
      match rest with
      | r :: rs => (c :: r) :: rs
      | [] => [[c]]

/-- `middleware.validateJWT`, exactly as written in the source: split on
".", demand three segments, and return the placeholder claims
`{UserID: 0, Email: "", Role: ""}` without inspecting the secret or any
signature. -/
def validateJWT (tokenString secret : String) : Option JWTClaims :=
  let parts := splitOnChar '.' tokenString.data
  if parts.length = 3 then some { userID := 0, email := "", role := "" }
  else none

/-- Split a character list at its first space, Go `strings.SplitN _ " " 2`
style: the part before the space, and (when a space exists) everything
after it. -/
def breakAtSpace : List Char → List Char × Option (List Char)
  | [] => ([], none)
  | c :: cs =>
    if c = ' ' then ([], some cs)
    else
      let r := breakAtSpace cs
      (c :: r.1, r.2)

/-- Go's `strings.SplitN s " " 2`: split at the first space only. -/
def splitN2space (s : String) : List String :=
  match breakAtSpace s.data with
  | (w, none) => [String.mk w]
  | (w, some rest) => [String.mk w, String.mk rest]

/-- Go's `strings.ToLower`, on the ASCII range relevant here. -/
def toLowerStr (s : String) : String := String.mk (s.data.map Char.toLower)

/-- `middleware.AuthRequired`: 401 on a missing header, 401 on a header
that is not `Bearer <token>`, 401 when `validateJWT` rejects; otherwise
store the claims in the context, inject the `X-User-*` request headers
and continue. -/
def AuthRequired (secret : String) (c : Ctx) : Ctx :=
  let authHeader := getH c.req.headers "Authorization"
  if authHeader = "" then
    abortJSON c 401 "unauthorized" "Authorization header is required"
  else
    match splitN2space authHeader with
    | [p0, p1] =>
      if toLowerStr p0 = "bearer" then
        match validateJWT p1 secret with
        | some claims =>
          let ks1 := setKey c.keysCtx "user_id" (toString claims.userID)
          let ks2 := setKey ks1 "user_email" claims.email
          let ks3 := setKey ks2 "user_role" claims.role
          let rh1 := setH c.req.headers "X-User-ID" (toString claims.userID)
          let rh2 := setH rh1 "X-User-Email" claims.email
          let rh3 := setH rh2 "X-User-Role" claims.role
          { c with keysCtx := ks3, req := { c.req with headers := rh3 } }
        | none => abortJSON c 401 "unauthorized" "Invalid or expired token"
      else abortJSON c 401 "unauthorized" "Invalid authorization header format"
    | _ => abortJSON c 401 "unauthorized" "Invalid authorization header format"

/-! ## handlers.ProxyToAuth / ProxyToCaptcha and proxy.ProxyRequest -/

/-- Go's `strings.TrimPrefix`. -/
def trimPfx (s pfx : List Char) : List Char :=
  if pfx.isPrefixOf s then s.drop pfx.length else s

/-- The `/api/v1` prefix as characters. -/
def apiV1 : List Char := "/api/v1".data

/-- `proxyReq.Header.Set name v` guarded by a `c.Get` existence check. -/
def setIfSome (hs : Headers) (name : String) (v : Option String) : Headers :=
  match v with
  | some x => setH hs name x
  | none => hs

/-- The upstream request headers built by `proxy.ProxyRequest`: start
from a copy of every inbound request header (the copy loop excludes
nothing), then `Set` the forwarding headers: client IP, request id, and
whichever principal keys are present on the context. -/
def buildUpstreamHeaders (c : Ctx) : Headers :=
  let h1 :=
    if c.clientIP ≠ "" then
      setH (setH c.req.headers "X-Forwarded-For" c.clientIP) "X-Real-IP" c.clientIP
    else c.req.headers
  let rid := getStr c.keysCtx "request_id"
  let h2 := if rid ≠ "" then setH h1 "X-Request-ID" rid else h1
  let h3 := setIfSome h2 "X-User-ID" (c.keysCtx "user_id")
  let h4 := setIfSome h3 "X-User-Email" (c.keysCtx "user_email")
  let h5 := setIfSome h4 "X-User-Role" (c.keysCtx "user_role")
  setIfSome h5 "X-API-Key-Hash" (c.keysCtx "api_key_hash")

/-- `proxy.ServiceProxy.ProxyRequest` composed with the path handling of
`handlers.ProxyToAuth` / `ProxyToCaptcha`: strip the `/api/v1` prefix in
the handler, re-prepend `/api/v1` on the target URL, copy the raw query
verbatim, build the upstream headers, and read the inbound body in full
(`io.ReadAll`) as the upstream body.  The upstream response (status
`upStatus`, header list `upHdrs`) is relayed by copying each of its
headers onto the response. -/
def ProxyRequest (upStatus : Nat) (upHdrs : List (String × String)) (c : Ctx) : Ctx :=
  let servicePath := trimPfx c.req.path apiV1
  let upPath := apiV1 ++ servicePath
  let respH := upHdrs.foldl (fun hs kv => setH hs kv.1 kv.2) c.respHeaders
  { c with
      upstream := some { method := c.req.method, path := upPath,
                         rawQuery := c.req.rawQuery,
                         headers := buildUpstreamHeaders c,
                         body := c.req.body },
      respHeaders := respH, respStatus := upStatus }

/-- The full middleware chain of a `bearer_required` route as assembled
in `cmd/gateway/main.go`: RequestID, CORS, SecurityHeaders, AuthRequired,
then the proxy handler. -/
def gatewayChain (secret fresh : String) (origins : List String)
    (methodsJoined headersJoined : String) (upStatus : Nat)
    (upHdrs : List (String × String)) : List (Ctx → Ctx) :=
  [RequestID fresh, CORS origins methodsJoined headersJoined,
   SecurityHeaders, AuthRequired secret, ProxyRequest upStatus upHdrs]

/-! ## internal/config: Load and getEnv -/

/-- `config.getEnv`: take the environment value when it is non-empty,
otherwise the default.  Go's `os.Getenv` returns "" both for an unset
variable and for one explicitly set to the empty string, so `value` here
covers both cases. -/
def getEnv (value defaultValue : String) : String :=
  if value ≠ "" then value else defaultValue

/-- The built-in default JWT secret of `config.Load`. -/
def defaultJWTSecret : String := "your-secret-key-min-32-characters-long"

/-- The JWT-secret part of `config.Load`: substitute the default for a
missing/empty `JWT_SECRET`, then fail iff the resulting secret is empty
or shorter than 32 bytes. -/
def loadJWTSecret (envJWTSecret : String) : Except String String :=
  let secret := getEnv envJWTSecret defaultJWTSecret
  if secret = "" ∨ secret.length < 32 then
    Except.error "JWT_SECRET must be at least 32 characters"
  else Except.ok secret

/-! ## middleware.RateLimiterRedis -/

/-- Result of the pipelined `INCR`/`EXPIRE` round trip to Redis. -/
inductive StoreResult where
  | ok (count : Nat)
  | err
  deriving Repr, DecidableEq

/-- One log record: (level, message). -/
abbrev LogEntry := String × String

/-- Observable result of one pass through a rate-limiter middleware. -/
structure RLResult where
  allow : Bool
  status : Nat
  errBody : String
  headers : List (String × String)
  logs : List LogEntry
  deriving Repr, DecidableEq

/-- `middleware.RateLimiterRedis` for a single request, given the store
round-trip result: on a store error the middleware calls `c.Next()`
immediately (fail open) and emits nothing — no headers and no log line;
otherwise it emits the rate-limit headers and rejects with 429 and body
error `rate_limit_exceeded` exactly when the count exceeds the limit. -/
def RateLimiterRedis (maxRequests windowSeconds : Nat) (store : StoreResult) :
    RLResult :=
  match store with
  | StoreResult.err => { allow := true, status := 0, errBody := "", headers := [], logs := [] }
  | StoreResult.ok count =>
    let remaining := maxRequests - count
    let hs := [("X-RateLimit-Limit", toString maxRequests),
               ("X-RateLimit-Remaining", toString remaining),
               ("X-RateLimit-Reset", toString windowSeconds)]
    if count > maxRequests then
      { allow := false, status := 429, errBody := "rate_limit_exceeded",
        headers := hs, logs := [] }
    else
      { allow := true, status := 0, errBody := "", headers := hs, logs := [] }

/-- The Redis counter as seen by a chronological trace of requests from
one client key: `INCR` returns the previous count plus one; because the
pipeline refreshes `EXPIRE key window` on every request, the key expires
exactly when a gap of at least `W` separates two consecutive requests.
Each output pair is (request time, count returned by INCR). -/
def redisSteps (W : Nat) : Option (Nat × Nat) → List Nat → List (Nat × Nat)
  | _, [] => []
  | none, t :: ts => (t, 1) :: redisSteps W (some (t, 1)) ts
  | some (last, count), t :: ts =>
    if W ≤ t - last then (t, 1) :: redisSteps W (some (t, 1)) ts
    else (t, count + 1) :: redisSteps W (some (t, count + 1)) ts

/-- The Redis-backed limiter trace for a fresh client key. -/
def redisTrace (W : Nat) (ts : List Nat) : List (Nat × Nat) :=
  redisSteps W none ts

/-! ## middleware.RateLimiterMemory -/

/-- One request's outcome under the in-memory limiter: its time, the
anchor (`lastSeen`, which the code updates only when it resets, so it is
the first-seen time of the current window), the count after the update,
and whether the request was allowed through. -/
structure MemEntry where
  time : Nat
  anchor : Nat
  count : Nat
  allowed : Bool
  deriving Repr, DecidableEq

/-- `middleware.RateLimiterMemory` run over a chronological trace of
request times from a single client IP.  The state is the stored
`(count, lastSeen)` pair.  A brand-new client is inserted with count 1
and allowed without a limit check; an existing client is reset to
count 1 when strictly more than `window` has elapsed since `lastSeen`,
otherwise incremented; the request is rejected (429,
`rate_limit_exceeded`) exactly when the updated count exceeds
`maxRequests`. -/
def memorySteps (maxRequests window : Nat) :
    Option (Nat × Nat) → List Nat → List MemEntry
  | _, [] => []
  | none, t :: ts =>
    { time := t, anchor := t, count := 1, allowed := true } ::
      memorySteps maxRequests window (some (1, t)) ts
  | some (count, lastSeen), t :: ts =>
    if window < t - lastSeen then
      { time := t, anchor := t, count := 1, allowed := !decide (1 > maxRequests) } ::
        memorySteps maxRequests window (some (1, t)) ts
    else
      { time := t, anchor := lastSeen, count := count + 1,
        allowed := !decide (count + 1 > maxRequests) } ::
        memorySteps maxRequests window (some (count + 1, lastSeen)) ts

/-- The in-memory limiter trace.  `main.go` passes only the configured
request limit; the window is hard-coded to `time.Minute` (60 s) inside
`RateLimiterMemory`. -/
def RateLimiterMemoryTrace (maxRequests : Nat) (ts : List Nat) : List MemEntry :=
  memorySteps maxRequests 60 none ts

/-! ## proxy.ProxyRequest: body handling and router-generated statuses -/

/-- `proxy.ProxyRequest` reads the inbound body with `io.ReadAll` into
`bodyBytes`: the number of body bytes buffered in memory equals the full
body length, whatever it is. -/
def proxyBufferedBytes (body : List Nat) : Nat := body.length

/-- The HTTP statuses `proxy.ProxyRequest` itself can generate (500 on a
bad target URL or an unreadable upstream response, 400 on an unreadable
inbound body, 502 on an upstream transport error); any other status is
relayed from the upstream response. -/
def proxyErrorStatuses : List Nat := [500, 400, 502]

/-! ## Basic lemmas about the header / key maps -/

theorem getH_setH_eq (hs : Headers) (k v : String) : setH hs k v k = v := by
  simp [setH]

theorem getH_setH_ne (hs : Headers) (k k2 v : String) (h : k2 ≠ k) :
    setH hs k v k2 = hs k2 := by
  simp [setH, h]

theorem getH_foldl_setH_ne (l : List (String × String)) (hs : Headers) (k : String)
    (h : ∀ kv ∈ l, kv.1 ≠ k) :
    (l.foldl (fun hs2 kv => setH hs2 kv.1 kv.2) hs) k = hs k := by
  induction l generalizing hs with
  | nil => rfl
  | cons kv l ih =>
    have hk : kv.1 ≠ k := h kv (List.mem_cons_self _ _)
    have := ih (setH hs kv.1 kv.2) (fun kv2 hm => h kv2 (List.mem_cons_of_mem _ hm))
    rw [List.foldl_cons, this, getH_setH_ne _ _ _ _ (fun he => hk he.symm)]

theorem trimPfx_append (pfx s : List Char) (h : pfx.isPrefixOf s) :
    pfx ++ trimPfx s pfx = s := by
  unfold trimPfx
  rw [if_pos h]
  obtain ⟨t, rfl⟩ := List.isPrefixOf_iff_prefix.mp h
  simp

/-! ## C10: configuration defaults for the JWT secret -/

/-- C10: when `JWT_SECRET` is unset or empty, `config.Load` substitutes
the built-in default secret (which is 38 ≥ 32 characters long) and
succeeds; it returns the length error exactly when an explicitly provided
non-empty secret is shorter than 32 characters, so startup never fails
merely because no secret was supplied. -/
theorem load_jwt_secret_defaults :
    loadJWTSecret "" = Except.ok defaultJWTSecret ∧
    32 ≤ defaultJWTSecret.length ∧
    ∀ v, loadJWTSecret v = Except.error "JWT_SECRET must be at least 32 characters"
           ↔ (v ≠ "" ∧ v.length < 32) := by
  refine ⟨rfl, by decide, ?_⟩
  intro v
  by_cases hv : v = ""
  · subst hv
    rw [show loadJWTSecret "" = Except.ok defaultJWTSecret from rfl]
    simp
  · by_cases hlen : v.length < 32
    · simp [loadJWTSecret, getEnv, hv, hlen]
    · simp [loadJWTSecret, getEnv, hv, hlen]

/-! ## C9: the stripped-then-reprepended path composes to the identity -/

/-- C9: for a request on a route under `/api/v1`, the handler strips the
`/api/v1` prefix and `ProxyRequest` prepends `/api/v1` again, so the
upstream path equals the inbound path, and the raw query string is copied
verbatim onto the upstream request. -/
theorem proxy_path_identity (c : Ctx) (upS : Nat) (upH : List (String × String))
    (h : apiV1.isPrefixOf c.req.path) :
    (ProxyRequest upS upH c).upstream.map (fun u => (u.path, u.rawQuery)) =
      some (c.req.path, c.req.rawQuery) := by
  simp only [ProxyRequest]
  rw [trimPfx_append _ _ h]
  rfl

/-- Witness for `proxy_path_identity` at the concrete route
`GET /api/v1/auth/me?full=1`. -/
theorem proxy_path_identity_witness :
    apiV1.isPrefixOf ("/api/v1/auth/me".data) = true ∧
    (ProxyRequest 200 []
        (mkCtx { method := "GET", path := "/api/v1/auth/me".data, rawQuery := "full=1",
                 headers := emptyHeaders, body := [] } "1.2.3.4" false)).upstream.map
        (fun u => (u.path, u.rawQuery)) =
      some ("/api/v1/auth/me".data, "full=1") :=
  ⟨by decide, proxy_path_identity _ 200 [] (by decide)⟩

/-! ## C1: the bearer validator never checks the signature (code bug) -/

/-- A concrete `bearer_required` request carrying a tampered three-segment
token. -/
def tamperedTokenReq : Request :=
  { method := "GET", path := "/api/v1/auth/me".data, rawQuery := "",
    headers := setH emptyHeaders "Authorization" "Bearer aaa.bbb.ccd",
    body := [] }

/-- C1 (failing-input evidence): `validateJWT` accepts any token with
three dot-separated segments, returns the placeholder claims
`(0, "", "")` instead of the token's signed claims, and is entirely
independent of the secret — so tampering with a byte of a token does not
invalidate it and no HMAC-SHA256 verification ever happens; the request
is forwarded upstream instead of getting 401. -/
theorem validateJWT_no_signature_check :
    validateJWT "aaa.bbb.ccc" defaultJWTSecret =
      some { userID := 0, email := "", role := "" } ∧
    validateJWT "aaa.bbb.ccd" defaultJWTSecret =
      some { userID := 0, email := "", role := "" } ∧
    (∀ t s1 s2, validateJWT t s1 = validateJWT t s2) ∧
    ((runChain (gatewayChain defaultJWTSecret "fresh-id" ["*"] "" "" 200 [])
        (mkCtx tamperedTokenReq "1.2.3.4" false)).upstream).isSome = true :=
  ⟨rfl, rfl, fun _ _ _ => rfl, by decide⟩

/-! ## C2: missing Authorization gives 401 and no upstream call, but a
signature-invalid token is still proxied (code bug) -/

/-- A concrete `bearer_required` request with no Authorization header. -/
def noAuthReq : Request :=
  { method := "GET", path := "/api/v1/auth/me".data, rawQuery := "",
    headers := emptyHeaders, body := [] }

/-- C2 (evidence): with the Authorization header absent the chain
responds 401 with `{"error":"unauthorized","message":"Authorization
header is required"}` and never issues an upstream request; but with the
signature-invalid token `Bearer aaa.bbb.ccd` an upstream request IS
issued (status relayed from upstream, not 401), contradicting the claim
that invalid Authorization is never proxied. -/
theorem missing_auth_aborts_invalid_token_proxied :
    (let out := runChain (gatewayChain defaultJWTSecret "fresh-id" ["*"] "" "" 200 [])
        (mkCtx noAuthReq "1.2.3.4" false)
     out.respStatus = 401 ∧ out.respErr = "unauthorized" ∧
       out.respMsg = "Authorization header is required" ∧
       out.upstream.isNone = true) ∧
    (let out2 := runChain (gatewayChain defaultJWTSecret "fresh-id" ["*"] "" "" 200 [])
        (mkCtx tamperedTokenReq "1.2.3.4" false)
     out2.upstream.isSome = true ∧ out2.respStatus = 200) := by
  refine ⟨⟨?_, ?_, ?_, ?_⟩, ?_, ?_⟩ <;> decide

/-! ## C7: store failure fails open, but silently (no warn log at all) -/

/-- C7 (counterexample to the logging half): when the Redis round trip
errors, the limiter allows the request but emits no log entry whatsoever
— in particular no warn-level line, throttled or otherwise. -/
theorem redis_error_no_warn_log :
    (RateLimiterRedis 100 60 StoreResult.err).allow = true ∧
    (RateLimiterRedis 100 60 StoreResult.err).logs = [] :=
  ⟨rfl, rfl⟩

/-- C7 (amended): on a store error `RateLimiterRedis` fails open —
the request proceeds — and produces no rate-limit headers and no log
entries at all. -/
theorem redis_error_fail_open (maxRequests windowSeconds : Nat) :
    RateLimiterRedis maxRequests windowSeconds StoreResult.err =
      { allow := true, status := 0, errBody := "", headers := [], logs := [] } :=
  rfl

/-! ## C8: the body is always fully buffered; no 413, no streaming -/

/-- C8 (counterexample): a 1 MiB body is buffered in full by
`io.ReadAll` — the buffered byte count equals the body length — and 413
is not among the statuses the proxy can generate, so nothing is ever
rejected for size. -/
theorem proxy_buffers_megabyte_body :
    proxyBufferedBytes (List.replicate 1048576 0) = 1048576 ∧
    413 ∉ proxyErrorStatuses :=
  ⟨List.length_replicate 1048576 0, by decide⟩

/-- C8 (amended): every forwarded request's body is read fully into
memory regardless of size — the buffered amount equals the body length
and the upstream request carries the whole body — and the proxy never
produces a 413 status. -/
theorem proxy_body_fully_buffered (body : List Nat) (c : Ctx) (upS : Nat)
    (upH : List (String × String)) :
    proxyBufferedBytes body = body.length ∧
    413 ∉ proxyErrorStatuses ∧
    (ProxyRequest upS upH c).upstream.map (fun u => u.body) = some c.req.body :=
  ⟨rfl, by decide, by simp [ProxyRequest]⟩

/-! ## C6: header forwarding does not exclude hop-by-hop headers -/

/-- Modelled from the spec: the eight hop-by-hop header names that the
spec says must not be forwarded to the upstream request. -/
def specHopByHopHeaders : List String :=
  ["Connection", "Keep-Alive", "Proxy-Authorization", "Proxy-Authenticate",
   "TE", "Trailer", "Transfer-Encoding", "Upgrade"]

/-- The header names `proxy.ProxyRequest` itself sets (overwriting any
inbound value) on the upstream request. -/
def proxyInjectedHeaderNames : List String :=
  ["X-Forwarded-For", "X-Real-IP", "X-Request-ID",
   "X-User-ID", "X-User-Email", "X-User-Role", "X-API-Key-Hash"]

theorem setIfSome_ne (hs : Headers) (name : String) (v : Option String)
    (k : String) (h : k ≠ name) : setIfSome hs name v k = hs k := by
  cases v <;> simp [setIfSome, setH, h]

theorem ite_setH_ne (cnd : Prop) [Decidable cnd] (hs : Headers) (name v k : String)
    (h : k ≠ name) : (if cnd then setH hs name v else hs) k = hs k := by
  split <;> simp [setH, h]

theorem ite_setH2_ne (cnd : Prop) [Decidable cnd] (hs : Headers)
    (n1 v1 n2 v2 k : String) (h1 : k ≠ n1) (h2 : k ≠ n2) :
    (if cnd then setH (setH hs n1 v1) n2 v2 else hs) k = hs k := by
  split <;> simp [setH, h1, h2]

/-- Any header name the proxy does not itself inject reaches the
upstream request with its inbound value. -/
theorem buildUpstreamHeaders_preserves (c : Ctx) (k : String)
    (hk : k ∉ proxyInjectedHeaderNames) :
    buildUpstreamHeaders c k = c.req.headers k := by
  have hne7 : k ≠ "X-Forwarded-For" ∧ k ≠ "X-Real-IP" ∧ k ≠ "X-Request-ID" ∧
      k ≠ "X-User-ID" ∧ k ≠ "X-User-Email" ∧ k ≠ "X-User-Role" ∧
      k ≠ "X-API-Key-Hash" := by
    simpa [proxyInjectedHeaderNames] using hk
  obtain ⟨n1, n2, n3, n4, n5, n6, n7⟩ := hne7
  simp only [buildUpstreamHeaders]
  rw [setIfSome_ne _ _ _ _ n7, setIfSome_ne _ _ _ _ n6, setIfSome_ne _ _ _ _ n5,
      setIfSome_ne _ _ _ _ n4, ite_setH_ne _ _ _ _ _ n3, ite_setH2_ne _ _ _ _ _ _ _ n1 n2]

/-- C6 (amended): the upstream request contains every inbound request
header whose name the proxy does not itself overwrite — in particular
all eight hop-by-hop headers are copied verbatim; nothing excludes
them. -/
theorem proxy_forwards_hop_by_hop (c : Ctx) (upS : Nat)
    (upH : List (String × String)) (k : String)
    (hk : k ∈ specHopByHopHeaders ∨ k ∉ proxyInjectedHeaderNames) :
    (ProxyRequest upS upH c).upstream.map (fun u => u.headers k) =
      some (c.req.headers k) := by
  have hk2 : k ∉ proxyInjectedHeaderNames := by
    rcases hk with hk | hk
    · fin_cases hk <;> decide
    · exact hk
  have hglue : (ProxyRequest upS upH c).upstream.map (fun u => u.headers k) =
      some (buildUpstreamHeaders c k) := rfl
  rw [hglue, buildUpstreamHeaders_preserves c k hk2]

/-- Witness for `proxy_forwards_hop_by_hop`: a concrete request carrying
`Connection: keep-alive` sees that header copied onto the upstream
request. -/
theorem proxy_forwards_hop_by_hop_witness :
    ("Connection" ∈ specHopByHopHeaders ∨
       "Connection" ∉ proxyInjectedHeaderNames) ∧
    (ProxyRequest 200 []
        (mkCtx { method := "GET", path := "/api/v1/auth/me".data, rawQuery := "",
                 headers := setH emptyHeaders "Connection" "keep-alive",
                 body := [] } "1.2.3.4" false)).upstream.map
        (fun u => u.headers "Connection") = some "keep-alive" := by
  constructor
  · exact Or.inl (by decide)
  · rw [proxy_forwards_hop_by_hop _ 200 [] "Connection" (Or.inl (by decide))]
    decide

/-- C6 (counterexample to the claim as stated): the hop-by-hop header
`Connection` IS copied onto the upstream request — the copy loop in
`ProxyRequest` excludes nothing. -/
theorem proxy_copies_connection_header :
    (ProxyRequest 200 []
        (mkCtx { method := "GET", path := "/api/v1/auth/me".data, rawQuery := "",
                 headers := setH emptyHeaders "Connection" "keep-alive",
                 body := [] } "1.2.3.4" false)).upstream.map
        (fun u => u.headers "Connection") = some "keep-alive" ∧
    ("keep-alive" : String) ≠ "" := by
  constructor
  · decide
  · decide

/-! ## Per-stage facts used to evaluate the middleware chain -/

theorem runChain_nil (c : Ctx) : runChain [] c = c := rfl

theorem runChain_cons (f : Ctx → Ctx) (fs : List (Ctx → Ctx)) (c : Ctx) :
    runChain (f :: fs) c = runChain fs (if c.aborted then c else f c) := rfl

theorem runChain_cons_active (f : Ctx → Ctx) (fs : List (Ctx → Ctx)) (c : Ctx)
    (h : c.aborted = false) : runChain (f :: fs) c = runChain fs (f c) := by
  rw [runChain_cons, h]
  rfl

theorem setKey_ne (ks : String → Option String) (k v k2 : String) (h : k2 ≠ k) :
    setKey ks k v k2 = ks k2 := by
  simp [setKey, h]

/-- The resolved correlation id of a request: inbound value if non-empty,
else the generated one. -/
def resolvedRid (fresh : String) (c : Ctx) : String :=
  if getH c.req.headers "X-Request-ID" = "" then fresh
  else getH c.req.headers "X-Request-ID"

theorem RequestID_aborted (f : String) (c : Ctx) :
    (RequestID f c).aborted = c.aborted := rfl

theorem RequestID_req (f : String) (c : Ctx) : (RequestID f c).req = c.req := rfl

theorem RequestID_production (f : String) (c : Ctx) :
    (RequestID f c).production = c.production := rfl

theorem RequestID_upstream (f : String) (c : Ctx) :
    (RequestID f c).upstream = c.upstream := rfl

theorem RequestID_respHeaders_rid (f : String) (c : Ctx) :
    (RequestID f c).respHeaders "X-Request-ID" = resolvedRid f c := by
  simp only [RequestID, resolvedRid]
  rw [getH_setH_eq]

theorem RequestID_respHeaders_ne (f : String) (c : Ctx) (k : String)
    (h : k ≠ "X-Request-ID") :
    (RequestID f c).respHeaders k = c.respHeaders k := by
  simp only [RequestID]
  rw [getH_setH_ne _ _ _ _ h]

theorem RequestID_key_rid (f : String) (c : Ctx) :
    (RequestID f c).keysCtx "request_id" = some (resolvedRid f c) := by
  simp only [RequestID, resolvedRid, setKey]
  rfl

theorem CORS_keysCtx (o : List String) (mJ hJ : String) (c : Ctx) :
    (CORS o mJ hJ c).keysCtx = c.keysCtx := by
  simp only [CORS]
  split <;> rfl

theorem CORS_req (o : List String) (mJ hJ : String) (c : Ctx) :
    (CORS o mJ hJ c).req = c.req := by
  simp only [CORS]
  split <;> rfl

theorem CORS_production (o : List String) (mJ hJ : String) (c : Ctx) :
    (CORS o mJ hJ c).production = c.production := by
  simp only [CORS]
  split <;> rfl

theorem CORS_upstream (o : List String) (mJ hJ : String) (c : Ctx) :
    (CORS o mJ hJ c).upstream = c.upstream := by
  simp only [CORS]
  split <;> rfl

theorem CORS_aborted_of_ne (o : List String) (mJ hJ : String) (c : Ctx)
    (h : c.req.method ≠ "OPTIONS") : (CORS o mJ hJ c).aborted = c.aborted := by
  simp only [CORS]
  rw [if_neg h]

theorem CORS_respHeaders_ne (o : List String) (mJ hJ : String) (c : Ctx) (k : String)
    (h1 : k ≠ "Access-Control-Allow-Origin") (h2 : k ≠ "Access-Control-Allow-Methods")
    (h3 : k ≠ "Access-Control-Allow-Headers")
    (h4 : k ≠ "Access-Control-Allow-Credentials") (h5 : k ≠ "Access-Control-Max-Age") :
    (CORS o mJ hJ c).respHeaders k = c.respHeaders k := by
  simp only [CORS]
  split <;>
  · dsimp only
    rw [getH_setH_ne _ _ _ _ h5, getH_setH_ne _ _ _ _ h4, getH_setH_ne _ _ _ _ h3,
        getH_setH_ne _ _ _ _ h2, ite_setH_ne _ _ _ _ _ h1]

theorem SecurityHeaders_aborted (c : Ctx) :
    (SecurityHeaders c).aborted = c.aborted := rfl

theorem SecurityHeaders_req (c : Ctx) : (SecurityHeaders c).req = c.req := rfl

theorem SecurityHeaders_keysCtx (c : Ctx) :
    (SecurityHeaders c).keysCtx = c.keysCtx := rfl

theorem SecurityHeaders_upstream (c : Ctx) :
    (SecurityHeaders c).upstream = c.upstream := rfl

theorem SecurityHeaders_cto (c : Ctx) :
    (SecurityHeaders c).respHeaders "X-Content-Type-Options" = "nosniff" := by
  simp only [SecurityHeaders]
  rw [ite_setH_ne _ _ _ _ _ (by decide), getH_setH_ne _ _ _ _ (by decide),
      getH_setH_ne _ _ _ _ (by decide), getH_setH_ne _ _ _ _ (by decide), getH_setH_eq]

theorem SecurityHeaders_xfo (c : Ctx) :
    (SecurityHeaders c).respHeaders "X-Frame-Options" = "DENY" := by
  simp only [SecurityHeaders]
  rw [ite_setH_ne _ _ _ _ _ (by decide), getH_setH_ne _ _ _ _ (by decide),
      getH_setH_ne _ _ _ _ (by decide), getH_setH_eq]

theorem SecurityHeaders_xss (c : Ctx) :
    (SecurityHeaders c).respHeaders "X-XSS-Protection" = "1; mode=block" := by
  simp only [SecurityHeaders]
  rw [ite_setH_ne _ _ _ _ _ (by decide), getH_setH_ne _ _ _ _ (by decide), getH_setH_eq]

theorem SecurityHeaders_refpol (c : Ctx) :
    (SecurityHeaders c).respHeaders "Referrer-Policy" =
      "strict-origin-when-cross-origin" := by
  simp only [SecurityHeaders]
  rw [ite_setH_ne _ _ _ _ _ (by decide), getH_setH_eq]

theorem SecurityHeaders_hsts (c : Ctx) :
    (SecurityHeaders c).respHeaders "Strict-Transport-Security" =
      if c.production then "max-age=31536000; includeSubDomains"
      else c.respHeaders "Strict-Transport-Security" := by
  simp only [SecurityHeaders]
  by_cases hp : c.production
  · rw [if_pos hp, if_pos hp, getH_setH_eq]
  · rw [if_neg hp, if_neg hp, getH_setH_ne _ _ _ _ (by decide),
        getH_setH_ne _ _ _ _ (by decide), getH_setH_ne _ _ _ _ (by decide),
        getH_setH_ne _ _ _ _ (by decide)]

theorem AuthRequired_respHeaders (s : String) (c : Ctx) :
    (AuthRequired s c).respHeaders = c.respHeaders := by
  simp only [AuthRequired, abortJSON]
  repeat' split
  all_goals rfl

theorem AuthRequired_production (s : String) (c : Ctx) :
    (AuthRequired s c).production = c.production := by
  simp only [AuthRequired, abortJSON]
  repeat' split
  all_goals rfl

theorem AuthRequired_upstream (s : String) (c : Ctx) :
    (AuthRequired s c).upstream = c.upstream := by
  simp only [AuthRequired, abortJSON]
  repeat' split
  all_goals rfl

theorem AuthRequired_keysCtx_rid (s : String) (c : Ctx) :
    (AuthRequired s c).keysCtx "request_id" = c.keysCtx "request_id" := by
  simp only [AuthRequired, abortJSON]
  repeat' split
  all_goals rfl

theorem ProxyRequest_respHeaders_ne (upS : Nat) (upH : List (String × String))
    (c : Ctx) (k : String) (h : ∀ kv ∈ upH, kv.1 ≠ k) :
    (ProxyRequest upS upH c).respHeaders k = c.respHeaders k := by
  simp only [ProxyRequest]
  exact getH_foldl_setH_ne upH c.respHeaders k h

theorem ProxyRequest_upstream_rid (upS : Nat) (upH : List (String × String))
    (c : Ctx) (h : getStr c.keysCtx "request_id" ≠ "") :
    (ProxyRequest upS upH c).upstream.map (fun u => u.headers "X-Request-ID") =
      some (getStr c.keysCtx "request_id") := by
  have hglue : (ProxyRequest upS upH c).upstream.map (fun u => u.headers "X-Request-ID") =
      some (buildUpstreamHeaders c "X-Request-ID") := rfl
  rw [hglue]
  simp only [buildUpstreamHeaders]
  rw [setIfSome_ne _ _ _ _ (by decide), setIfSome_ne _ _ _ _ (by decide),
      setIfSome_ne _ _ _ _ (by decide), setIfSome_ne _ _ _ _ (by decide),
      if_pos h, getH_setH_eq]

theorem SecurityHeaders_respHeaders_ne (c : Ctx) (k : String)
    (h1 : k ≠ "X-Content-Type-Options") (h2 : k ≠ "X-Frame-Options")
    (h3 : k ≠ "X-XSS-Protection") (h4 : k ≠ "Referrer-Policy")
    (h5 : k ≠ "Strict-Transport-Security") :
    (SecurityHeaders c).respHeaders k = c.respHeaders k := by
  simp only [SecurityHeaders]
  rw [ite_setH_ne _ _ _ _ _ h5, getH_setH_ne _ _ _ _ h4, getH_setH_ne _ _ _ _ h3,
      getH_setH_ne _ _ _ _ h2, getH_setH_ne _ _ _ _ h1]

theorem runChain_of_aborted (fs : List (Ctx → Ctx)) (c : Ctx)
    (h : c.aborted = true) : runChain fs c = c := by
  induction fs with
  | nil => rfl
  | cons f fs ih => rw [runChain_cons, h, if_pos rfl, ih]

theorem resolvedRid_ne_empty (fresh : String) (c : Ctx) (hf : fresh ≠ "") :
    resolvedRid fresh c ≠ "" := by
  unfold resolvedRid
  split
  · exact hf
  · next h => exact h

/-! ## C5: security headers on every response — except CORS preflights -/

/-- The response header names `middleware.SecurityHeaders` manages. -/
def securityHeaderNames : List String :=
  ["X-Content-Type-Options", "X-Frame-Options", "X-XSS-Protection",
   "Referrer-Policy", "Strict-Transport-Security"]

/-- One complete pass of an inbound request through the gateway chain. -/
def gatewayRun (req : Request) (ip : String) (prod : Bool) (secret fresh : String)
    (origins : List String) (mJ hJ : String) (upS : Nat)
    (upH : List (String × String)) : Ctx :=
  runChain (gatewayChain secret fresh origins mJ hJ upS upH) (mkCtx req ip prod)

/-- C5 (amended): every response to a non-OPTIONS request whose relayed
upstream response headers do not themselves use the security header
names carries the four fixed security headers, and carries
Strict-Transport-Security iff the environment is production.  (OPTIONS
preflights are excluded: CORS aborts with 204 before SecurityHeaders
runs, see the counterexample.) -/
theorem security_headers_non_preflight (req : Request) (ip : String) (prod : Bool)
    (secret fresh : String) (origins : List String) (mJ hJ : String) (upS : Nat)
    (upH : List (String × String))
    (hm : req.method ≠ "OPTIONS")
    (hup : ∀ kv ∈ upH, kv.1 ∉ securityHeaderNames) :
    (gatewayRun req ip prod secret fresh origins mJ hJ upS upH).respHeaders
        "X-Content-Type-Options" = "nosniff" ∧
    (gatewayRun req ip prod secret fresh origins mJ hJ upS upH).respHeaders
        "X-Frame-Options" = "DENY" ∧
    (gatewayRun req ip prod secret fresh origins mJ hJ upS upH).respHeaders
        "X-XSS-Protection" = "1; mode=block" ∧
    (gatewayRun req ip prod secret fresh origins mJ hJ upS upH).respHeaders
        "Referrer-Policy" = "strict-origin-when-cross-origin" ∧
    ((gatewayRun req ip prod secret fresh origins mJ hJ upS upH).respHeaders
        "Strict-Transport-Security" ≠ "" ↔ prod = true) := by
  have h2 : (CORS origins mJ hJ (RequestID fresh (mkCtx req ip prod))).aborted = false := by
    rw [CORS_aborted_of_ne _ _ _ _ hm]
    rfl
  have h3 : (SecurityHeaders (CORS origins mJ hJ
      (RequestID fresh (mkCtx req ip prod)))).aborted = false := by
    rw [SecurityHeaders_aborted]
    exact h2
  rw [gatewayRun, gatewayChain, runChain_cons_active _ _ _ rfl,
      runChain_cons_active _ _ _ rfl, runChain_cons_active _ _ _ h2,
      runChain_cons_active _ _ _ h3, runChain_cons, runChain_nil]
  set c3 := SecurityHeaders (CORS origins mJ hJ (RequestID fresh (mkCtx req ip prod)))
    with hc3
  set c4 := AuthRequired secret c3 with hc4
  have hfin : ∀ k, k ∈ securityHeaderNames →
      (if c4.aborted then c4 else ProxyRequest upS upH c4).respHeaders k =
        c3.respHeaders k := by
    intro k hk
    have hkeep : c4.respHeaders = c3.respHeaders := by
      rw [hc4, AuthRequired_respHeaders]
    by_cases ha : c4.aborted
    · rw [if_pos ha, hkeep]
    · have hne2 : ∀ kv ∈ upH, kv.1 ≠ k := by
        intro kv hkv he
        exact hup kv hkv (he ▸ hk)
      rw [if_neg ha, ProxyRequest_respHeaders_ne upS upH c4 k hne2, hkeep]
  refine ⟨?_, ?_, ?_, ?_, ?_⟩
  · rw [hfin _ (by decide), hc3, SecurityHeaders_cto]
  · rw [hfin _ (by decide), hc3, SecurityHeaders_xfo]
  · rw [hfin _ (by decide), hc3, SecurityHeaders_xss]
  · rw [hfin _ (by decide), hc3, SecurityHeaders_refpol]
  · rw [hfin _ (by decide), hc3, SecurityHeaders_hsts]
    have hprod : (CORS origins mJ hJ (RequestID fresh (mkCtx req ip prod))).production
        = prod := by
      rw [CORS_production]
      rfl
    have hempty : (CORS origins mJ hJ (RequestID fresh (mkCtx req ip prod))).respHeaders
        "Strict-Transport-Security" = "" := by
      rw [CORS_respHeaders_ne _ _ _ _ _ (by decide) (by decide) (by decide) (by decide)
            (by decide),
          RequestID_respHeaders_ne _ _ _ (by decide)]
      rfl
    rw [hprod, hempty]
    cases prod <;> simp

/-- Witness for `security_headers_non_preflight`: a concrete GET request
(the unauthenticated `/api/v1/auth/me` probe) in production mode gets all
four security headers and HSTS. -/
theorem security_headers_non_preflight_witness :
    (noAuthReq.method ≠ "OPTIONS") ∧
    (∀ kv ∈ ([] : List (String × String)), kv.1 ∉ securityHeaderNames) ∧
    ((gatewayRun noAuthReq "1.2.3.4" true defaultJWTSecret "fresh-id" ["*"] "" ""
        200 []).respHeaders "X-Content-Type-Options" = "nosniff" ∧
     (gatewayRun noAuthReq "1.2.3.4" true defaultJWTSecret "fresh-id" ["*"] "" ""
        200 []).respHeaders "X-Frame-Options" = "DENY" ∧
     (gatewayRun noAuthReq "1.2.3.4" true defaultJWTSecret "fresh-id" ["*"] "" ""
        200 []).respHeaders "X-XSS-Protection" = "1; mode=block" ∧
     (gatewayRun noAuthReq "1.2.3.4" true defaultJWTSecret "fresh-id" ["*"] "" ""
        200 []).respHeaders "Referrer-Policy" = "strict-origin-when-cross-origin" ∧
     ((gatewayRun noAuthReq "1.2.3.4" true defaultJWTSecret "fresh-id" ["*"] "" ""
        200 []).respHeaders "Strict-Transport-Security" ≠ "" ↔ true = true)) :=
  ⟨by decide, by simp,
   security_headers_non_preflight noAuthReq "1.2.3.4" true defaultJWTSecret
     "fresh-id" ["*"] "" "" 200 [] (by decide) (by simp)⟩

/-- A concrete CORS preflight request. -/
def optionsReq : Request :=
  { method := "OPTIONS", path := "/api/v1/auth/me".data, rawQuery := "",
    headers := setH emptyHeaders "Origin" "http://localhost:3000",
    body := [] }

/-- C5 (counterexample to the claim as stated): an OPTIONS preflight is
answered 204 by the CORS middleware, which aborts the chain before
`SecurityHeaders` runs — so that response carries none of the security
headers (shown for `X-Content-Type-Options`), even in production. -/
theorem options_preflight_lacks_security_headers :
    (gatewayRun optionsReq "1.2.3.4" true defaultJWTSecret "fresh-id"
        ["http://localhost:3000"] "" "" 200 []).respStatus = 204 ∧
    (gatewayRun optionsReq "1.2.3.4" true defaultJWTSecret "fresh-id"
        ["http://localhost:3000"] "" "" 200 []).respHeaders
        "X-Content-Type-Options" = "" := by
  constructor <;> decide

/-! ## C4: correlation id on response and upstream request -/

/-- C4 (amended): for every inbound request, provided the relayed
upstream response does not itself carry an `X-Request-ID` header, the
response's `X-Request-ID` equals the inbound value when that is
non-empty and the freshly generated (non-empty) id otherwise, and every
upstream request carries that same value. -/
theorem request_id_propagation (req : Request) (ip : String) (prod : Bool)
    (secret fresh : String) (origins : List String) (mJ hJ : String) (upS : Nat)
    (upH : List (String × String))
    (hf : fresh ≠ "")
    (hno : ∀ kv ∈ upH, kv.1 ≠ "X-Request-ID") :
    (gatewayRun req ip prod secret fresh origins mJ hJ upS upH).respHeaders
        "X-Request-ID" = resolvedRid fresh (mkCtx req ip prod) ∧
    resolvedRid fresh (mkCtx req ip prod) ≠ "" ∧
    (∀ u, (gatewayRun req ip prod secret fresh origins mJ hJ upS upH).upstream = some u →
       u.headers "X-Request-ID" = resolvedRid fresh (mkCtx req ip prod)) := by
  have hrid : resolvedRid fresh (mkCtx req ip prod) ≠ "" :=
    resolvedRid_ne_empty fresh _ hf
  rw [gatewayRun, gatewayChain, runChain_cons_active _ _ _ rfl,
      runChain_cons_active _ _ _ rfl]
  set c1 := RequestID fresh (mkCtx req ip prod) with hc1
  have hresp1 : c1.respHeaders "X-Request-ID" = resolvedRid fresh (mkCtx req ip prod) := by
    rw [hc1, RequestID_respHeaders_rid]
  have hkey1 : c1.keysCtx "request_id" = some (resolvedRid fresh (mkCtx req ip prod)) := by
    rw [hc1, RequestID_key_rid]
  by_cases hab2 : (CORS origins mJ hJ c1).aborted
  · rw [runChain_of_aborted _ _ hab2]
    refine ⟨?_, hrid, ?_⟩
    · rw [CORS_respHeaders_ne _ _ _ _ _ (by decide) (by decide) (by decide) (by decide)
            (by decide), hresp1]
    · intro u hu
      rw [CORS_upstream, hc1, RequestID_upstream] at hu
      exact absurd hu (by simp [mkCtx])
  · rw [runChain_cons_active _ _ _ (by simpa using hab2)]
    set c2 := CORS origins mJ hJ c1 with hc2
    have hresp2 : c2.respHeaders "X-Request-ID" = resolvedRid fresh (mkCtx req ip prod) := by
      rw [hc2, CORS_respHeaders_ne _ _ _ _ _ (by decide) (by decide) (by decide) (by decide)
            (by decide), hresp1]
    have hkey2 : c2.keysCtx "request_id" = some (resolvedRid fresh (mkCtx req ip prod)) := by
      rw [hc2, CORS_keysCtx, hkey1]
    have hab3 : (SecurityHeaders c2).aborted = false := by
      rw [SecurityHeaders_aborted]
      simpa using hab2
    rw [runChain_cons_active _ _ _ hab3]
    set c3 := SecurityHeaders c2 with hc3
    have hresp3 : c3.respHeaders "X-Request-ID" = resolvedRid fresh (mkCtx req ip prod) := by
      rw [hc3, SecurityHeaders_respHeaders_ne _ _ (by decide) (by decide) (by decide)
            (by decide) (by decide), hresp2]
    have hkey3 : c3.keysCtx "request_id" = some (resolvedRid fresh (mkCtx req ip prod)) := by
      rw [hc3, SecurityHeaders_keysCtx, hkey2]
    set c4 := AuthRequired secret c3 with hc4
    have hresp4 : c4.respHeaders "X-Request-ID" = resolvedRid fresh (mkCtx req ip prod) := by
      rw [hc4, AuthRequired_respHeaders, hresp3]
    have hkey4 : c4.keysCtx "request_id" = some (resolvedRid fresh (mkCtx req ip prod)) := by
      rw [hc4, AuthRequired_keysCtx_rid, hkey3]
    have hgetstr : getStr c4.keysCtx "request_id" = resolvedRid fresh (mkCtx req ip prod) := by
      rw [getStr, hkey4]
      rfl
    rw [runChain_cons, runChain_nil]
    by_cases hab4 : c4.aborted
    · rw [if_pos hab4]
      refine ⟨hresp4, hrid, ?_⟩
      intro u hu
      rw [hc4, AuthRequired_upstream, hc3, SecurityHeaders_upstream, hc2, CORS_upstream,
          hc1, RequestID_upstream] at hu
      exact absurd hu (by simp [mkCtx])
    · rw [if_neg hab4]
      refine ⟨?_, hrid, ?_⟩
      · rw [ProxyRequest_respHeaders_ne upS upH c4 _ hno, hresp4]
      · intro u hu
        have hmap := ProxyRequest_upstream_rid upS upH c4 (by rw [hgetstr]; exact hrid)
        rw [hu] at hmap
        simp only [Option.map_some'] at hmap
        rw [← hgetstr]
        exact Option.some.inj hmap

/-- A request with an inbound correlation id and a (format-valid) bearer
token, so the chain reaches the proxy. -/
def ridReq : Request :=
  { method := "GET", path := "/api/v1/auth/me".data, rawQuery := "",
    headers := setH (setH emptyHeaders "Authorization" "Bearer aaa.bbb.ccc")
      "X-Request-ID" "inbound-id",
    body := [] }

/-- Witness for `request_id_propagation` at `ridReq` (upstream response
sets no `X-Request-ID`). -/
theorem request_id_propagation_witness :
    ("fresh-id" : String) ≠ "" ∧
    (∀ kv ∈ ([] : List (String × String)), kv.1 ≠ "X-Request-ID") ∧
    ((gatewayRun ridReq "1.2.3.4" false defaultJWTSecret "fresh-id" ["*"] "" ""
        200 []).respHeaders "X-Request-ID" =
          resolvedRid "fresh-id" (mkCtx ridReq "1.2.3.4" false) ∧
     resolvedRid "fresh-id" (mkCtx ridReq "1.2.3.4" false) ≠ "" ∧
     (∀ u, (gatewayRun ridReq "1.2.3.4" false defaultJWTSecret "fresh-id" ["*"] "" ""
        200 []).upstream = some u →
          u.headers "X-Request-ID" = resolvedRid "fresh-id" (mkCtx ridReq "1.2.3.4" false))) :=
  ⟨by decide, by simp,
   request_id_propagation ridReq "1.2.3.4" false defaultJWTSecret "fresh-id" ["*"]
     "" "" 200 [] (by decide) (by simp)⟩

/-- C4 (counterexample to the claim as stated): when the relayed upstream
response itself carries an `X-Request-ID` header, the proxy's response
header copy overwrites the middleware-set value, so the final response id
differs from the inbound one. -/
theorem upstream_overwrites_request_id :
    (gatewayRun ridReq "1.2.3.4" false defaultJWTSecret "fresh-id" ["*"] "" "" 200
        [("X-Request-ID", "upstream-id")]).respHeaders "X-Request-ID" = "upstream-id" ∧
    getH ridReq.headers "X-Request-ID" = "inbound-id" ∧
    ("upstream-id" : String) ≠ "inbound-id" := by
  refine ⟨?_, ?_, ?_⟩ <;> decide

/-! ## C3: rate-limit window bounds -/

/-- Chronological ordering invariant between two limiter trace entries:
times are ordered, and an entry less than a window later than an earlier
one has a strictly larger counter value. -/
def redisRel (W : Nat) (e e2 : Nat × Nat) : Prop :=
  e.1 ≤ e2.1 ∧ (e2.1 - e.1 < W → e.2 < e2.2)

theorem redisSteps_entry_bounds (W last count : Nat) (ts : List Nat)
    (hs : List.Chain (· ≤ ·) last ts) :
    ∀ e ∈ redisSteps W (some (last, count)) ts,
      last ≤ e.1 ∧ (e.1 - last < W → count < e.2) := by
  induction ts generalizing last count with
  | nil =>
    intro e he
    simp [redisSteps] at he
  | cons t ts ih =>
    cases hs with
    | cons hlt hchain =>
      intro e he
      simp only [redisSteps] at he
      by_cases hexp : W ≤ t - last
      · rw [if_pos hexp] at he
        rcases List.mem_cons.mp he with rfl | he2
        · exact ⟨hlt, fun hcon => by omega⟩
        · obtain ⟨h1, h2⟩ := ih t 1 hchain e he2
          exact ⟨le_trans hlt h1, fun hcon => by omega⟩
      · rw [if_neg hexp] at he
        rcases List.mem_cons.mp he with rfl | he2
        · exact ⟨hlt, fun _ => Nat.lt_succ_self count⟩
        · obtain ⟨h1, h2⟩ := ih t (count + 1) hchain e he2
          refine ⟨le_trans hlt h1, fun hcon => ?_⟩
          have hcon2 : e.1 - t < W := by omega
          have := h2 hcon2
          omega

theorem redisSteps_pairwise_some (W last count : Nat) (ts : List Nat)
    (hs : List.Chain (· ≤ ·) last ts) :
    (redisSteps W (some (last, count)) ts).Pairwise (redisRel W) := by
  induction ts generalizing last count with
  | nil => simp [redisSteps]
  | cons t ts ih =>
    cases hs with
    | cons hlt hchain =>
      simp only [redisSteps]
      by_cases hexp : W ≤ t - last
      · rw [if_pos hexp]
        exact List.Pairwise.cons
          (fun e he => redisSteps_entry_bounds W t 1 ts hchain e he)
          (ih t 1 hchain)
      · rw [if_neg hexp]
        exact List.Pairwise.cons
          (fun e he => redisSteps_entry_bounds W t (count + 1) ts hchain e he)
          (ih t (count + 1) hchain)

theorem redisTrace_pairwise (W : Nat) (ts : List Nat)
    (hs : List.Chain' (· ≤ ·) ts) :
    (redisTrace W ts).Pairwise (redisRel W) := by
  cases ts with
  | nil => simp [redisTrace, redisSteps]
  | cons t ts =>
    simp only [redisTrace, redisSteps]
    exact List.Pairwise.cons
      (fun e he => redisSteps_entry_bounds W t 1 ts hs e he)
      (redisSteps_pairwise_some W t 1 ts hs)

theorem redisSteps_counts_pos (W : Nat) (st : Option (Nat × Nat)) (ts : List Nat) :
    ∀ e ∈ redisSteps W st ts, 1 ≤ e.2 := by
  induction ts generalizing st with
  | nil =>
    intro e he
    cases st <;> simp [redisSteps] at he
  | cons t ts ih =>
    intro e he
    match st with
    | none =>
      simp only [redisSteps] at he
      rcases List.mem_cons.mp he with rfl | he2
      · exact le_refl 1
      · exact ih _ e he2
    | some (last, count) =>
      simp only [redisSteps] at he
      by_cases hexp : W ≤ t - last
      · rw [if_pos hexp] at he
        rcases List.mem_cons.mp he with rfl | he2
        · exact le_refl 1
        · exact ih _ e he2
      · rw [if_neg hexp] at he
        rcases List.mem_cons.mp he with rfl | he2
        · exact Nat.succ_le_succ (Nat.zero_le count)
        · exact ih _ e he2

theorem length_le_of_pairwise_lt (R : Nat) (l : List Nat)
    (hp : l.Pairwise (· < ·)) (hmem : ∀ x ∈ l, 1 ≤ x ∧ x ≤ R) :
    l.length ≤ R := by
  have hnodup : l.Nodup := hp.imp Nat.ne_of_lt
  have hsub : l.toFinset ⊆ Finset.Icc 1 R := by
    intro x hx
    rw [List.mem_toFinset] at hx
    obtain ⟨h1, h2⟩ := hmem x hx
    exact Finset.mem_Icc.mpr ⟨h1, h2⟩
  have hcard := Finset.card_le_card hsub
  rw [List.toFinset_card_of_nodup hnodup, Nat.card_Icc] at hcard
  omega

/-- Under the Redis backend, any rolling window of length `W` sees at
most `R` requests whose count is within the limit (i.e. non-429
responses). -/
theorem redis_window_bound (R W a : Nat) (ts : List Nat)
    (hs : List.Chain' (· ≤ ·) ts) :
    ((redisTrace W ts).filter
        (fun e => decide (a ≤ e.1) && decide (e.1 < a + W) && decide (e.2 ≤ R))).length
      ≤ R := by
  have hpfil := (redisTrace_pairwise W ts hs).filter
    (fun e => decide (a ≤ e.1) && decide (e.1 < a + W) && decide (e.2 ≤ R))
  have hmem1 : ∀ e ∈ (redisTrace W ts).filter
      (fun e => decide (a ≤ e.1) && decide (e.1 < a + W) && decide (e.2 ≤ R)),
      a ≤ e.1 ∧ e.1 < a + W ∧ e.2 ≤ R := by
    intro e he
    have := List.of_mem_filter he
    simp only [Bool.and_eq_true, decide_eq_true_eq] at this
    exact ⟨this.1.1, this.1.2, this.2⟩
  have hp2 : ((redisTrace W ts).filter
      (fun e => decide (a ≤ e.1) && decide (e.1 < a + W) && decide (e.2 ≤ R))).Pairwise
      (fun e e2 => e.2 < e2.2) := by
    refine hpfil.imp_of_mem ?_
    intro e e2 he he2 hrel
    obtain ⟨hle, hlt⟩ := hrel
    obtain ⟨ha1, hw1, _⟩ := hmem1 e he
    obtain ⟨ha2, hw2, _⟩ := hmem1 e2 he2
    exact hlt (by omega)
  have hp3 : (((redisTrace W ts).filter
      (fun e => decide (a ≤ e.1) && decide (e.1 < a + W) && decide (e.2 ≤ R))).map
      Prod.snd).Pairwise (· < ·) := List.pairwise_map.mpr hp2
  have hmem2 : ∀ x ∈ ((redisTrace W ts).filter
      (fun e => decide (a ≤ e.1) && decide (e.1 < a + W) && decide (e.2 ≤ R))).map
      Prod.snd, 1 ≤ x ∧ x ≤ R := by
    intro x hx
    rw [List.mem_map] at hx
    obtain ⟨e, he, rfl⟩ := hx
    exact ⟨redisSteps_counts_pos W none ts e (List.mem_of_mem_filter he),
           (hmem1 e he).2.2⟩
  have := length_le_of_pairwise_lt R _ hp3 hmem2
  simpa using this

/-- Epoch ordering invariant for the in-memory limiter: anchors are
ordered, and two entries of the same epoch (same anchor) have strictly
increasing counts. -/
def memRel (e e2 : MemEntry) : Prop :=
  e.anchor ≤ e2.anchor ∧ (e2.anchor = e.anchor → e.count < e2.count)

theorem memorySteps_entry_bounds (R w count anchor prev : Nat) (ts : List Nat)
    (hpa : anchor ≤ prev) (hs : List.Chain (· ≤ ·) prev ts) :
    ∀ e ∈ memorySteps R w (some (count, anchor)) ts,
      anchor ≤ e.anchor ∧ (e.anchor = anchor → count < e.count) := by
  induction ts generalizing count anchor prev with
  | nil =>
    intro e he
    simp [memorySteps] at he
  | cons t ts ih =>
    cases hs with
    | cons hlt hchain =>
      intro e he
      simp only [memorySteps] at he
      by_cases hexp : w < t - anchor
      · rw [if_pos hexp] at he
        rcases List.mem_cons.mp he with rfl | he2
        · refine ⟨?_, ?_⟩
          · show anchor ≤ t
            omega
          · intro hcon
            have hta : t = anchor := hcon
            omega
        · obtain ⟨h1, h2⟩ := ih 1 t t (le_refl t) hchain e he2
          refine ⟨by omega, fun hcon => ?_⟩
          omega
      · rw [if_neg hexp] at he
        rcases List.mem_cons.mp he with rfl | he2
        · exact ⟨le_refl anchor, fun _ => Nat.lt_succ_self count⟩
        · obtain ⟨h1, h2⟩ := ih (count + 1) anchor t (by omega) hchain e he2
          exact ⟨h1, fun hcon => by have := h2 hcon; omega⟩

theorem memorySteps_pairwise_some (R w count anchor prev : Nat) (ts : List Nat)
    (hpa : anchor ≤ prev) (hs : List.Chain (· ≤ ·) prev ts) :
    (memorySteps R w (some (count, anchor)) ts).Pairwise memRel := by
  induction ts generalizing count anchor prev with
  | nil => simp [memorySteps]
  | cons t ts ih =>
    cases hs with
    | cons hlt hchain =>
      simp only [memorySteps]
      by_cases hexp : w < t - anchor
      · rw [if_pos hexp]
        exact List.Pairwise.cons
          (fun e he => memorySteps_entry_bounds R w 1 t t ts (le_refl t) hchain e he)
          (ih 1 t t (le_refl t) hchain)
      · rw [if_neg hexp]
        exact List.Pairwise.cons
          (fun e he =>
            memorySteps_entry_bounds R w (count + 1) anchor t ts (by omega) hchain e he)
          (ih (count + 1) anchor t (by omega) hchain)

theorem memoryTrace_pairwise (R : Nat) (ts : List Nat)
    (hs : List.Chain' (· ≤ ·) ts) :
    (RateLimiterMemoryTrace R ts).Pairwise memRel := by
  cases ts with
  | nil => simp [RateLimiterMemoryTrace, memorySteps]
  | cons t ts =>
    simp only [RateLimiterMemoryTrace, memorySteps]
    exact List.Pairwise.cons
      (fun e he => memorySteps_entry_bounds R 60 1 t t ts (le_refl t) hs e he)
      (memorySteps_pairwise_some R 60 1 t t ts (le_refl t) hs)

theorem memorySteps_counts_pos (R w : Nat) (st : Option (Nat × Nat)) (ts : List Nat) :
    ∀ e ∈ memorySteps R w st ts, 1 ≤ e.count := by
  induction ts generalizing st with
  | nil =>
    intro e he
    cases st <;> simp [memorySteps] at he
  | cons t ts ih =>
    intro e he
    match st with
    | none =>
      simp only [memorySteps] at he
      rcases List.mem_cons.mp he with rfl | he2
      · exact le_refl 1
      · exact ih _ e he2
    | some (count, lastSeen) =>
      simp only [memorySteps] at he
      by_cases hexp : w < t - lastSeen
      · rw [if_pos hexp] at he
        rcases List.mem_cons.mp he with rfl | he2
        · exact le_refl 1
        · exact ih _ e he2
      · rw [if_neg hexp] at he
        rcases List.mem_cons.mp he with rfl | he2
        · exact Nat.succ_le_succ (Nat.zero_le count)
        · exact ih _ e he2

theorem memorySteps_allowed_count_le (R w : Nat) (hR : 1 ≤ R)
    (st : Option (Nat × Nat)) (ts : List Nat) :
    ∀ e ∈ memorySteps R w st ts, e.allowed = true → e.count ≤ R := by
  induction ts generalizing st with
  | nil =>
    intro e he
    cases st <;> simp [memorySteps] at he
  | cons t ts ih =>
    intro e he hall
    match st with
    | none =>
      simp only [memorySteps] at he
      rcases List.mem_cons.mp he with rfl | he2
      · exact hR
      · exact ih _ e he2 hall
    | some (count, lastSeen) =>
      simp only [memorySteps] at he
      by_cases hexp : w < t - lastSeen
      · rw [if_pos hexp] at he
        rcases List.mem_cons.mp he with rfl | he2
        · exact hR
        · exact ih _ e he2 hall
      · rw [if_neg hexp] at he
        rcases List.mem_cons.mp he with rfl | he2
        · simp only [Bool.not_eq_true', decide_eq_false_iff_not, Nat.not_lt] at hall
          simpa using hall
        · exact ih _ e he2 hall

/-- Under the in-memory backend, each epoch (maximal run of requests
sharing one `lastSeen` anchor, i.e. between two resets) sees at most `R`
allowed requests, provided the limit is at least 1. -/
theorem memory_epoch_bound (R a : Nat) (hR : 1 ≤ R) (ts : List Nat)
    (hs : List.Chain' (· ≤ ·) ts) :
    ((RateLimiterMemoryTrace R ts).filter
        (fun e => decide (e.anchor = a) && e.allowed)).length ≤ R := by
  have hpfil := (memoryTrace_pairwise R ts hs).filter
    (fun e => decide (e.anchor = a) && e.allowed)
  have hmem1 : ∀ e ∈ (RateLimiterMemoryTrace R ts).filter
      (fun e => decide (e.anchor = a) && e.allowed),
      e.anchor = a ∧ e.allowed = true := by
    intro e he
    have := List.of_mem_filter he
    simp only [Bool.and_eq_true, decide_eq_true_eq] at this
    exact this
  have hp2 : ((RateLimiterMemoryTrace R ts).filter
      (fun e => decide (e.anchor = a) && e.allowed)).Pairwise
      (fun e e2 => e.count < e2.count) := by
    refine hpfil.imp_of_mem ?_
    intro e e2 he he2 hrel
    obtain ⟨_, hlt⟩ := hrel
    obtain ⟨ha1, _⟩ := hmem1 e he
    obtain ⟨ha2, _⟩ := hmem1 e2 he2
    exact hlt (by rw [ha1, ha2])
  have hp3 : (((RateLimiterMemoryTrace R ts).filter
      (fun e => decide (e.anchor = a) && e.allowed)).map MemEntry.count).Pairwise
      (· < ·) := List.pairwise_map.mpr hp2
  have hmem2 : ∀ x ∈ ((RateLimiterMemoryTrace R ts).filter
      (fun e => decide (e.anchor = a) && e.allowed)).map MemEntry.count,
      1 ≤ x ∧ x ≤ R := by
    intro x hx
    rw [List.mem_map] at hx
    obtain ⟨e, he, rfl⟩ := hx
    refine ⟨memorySteps_counts_pos R 60 none ts e (List.mem_of_mem_filter he), ?_⟩
    exact memorySteps_allowed_count_le R 60 hR none ts e (List.mem_of_mem_filter he)
      (hmem1 e he).2
  have := length_le_of_pairwise_lt R _ hp3 hmem2
  simpa using this

/-- C3 (amended): (1) under the Redis backend at most `R` requests in any
rolling window of the configured duration `W` receive a non-429 response
(count within limit), because the per-request `EXPIRE` refresh means a
counter only resets after a full window of silence; (2) under the
in-memory backend the window is a fixed, hard-coded 60-second window
anchored at each epoch's first request, and at most `R` requests per
epoch are allowed (for `R ≥ 1`) — but not per rolling window, see the
counterexample; (3) a request whose count exceeds the limit is
short-circuited with HTTP 429 and body error `rate_limit_exceeded`. -/
theorem rate_limiter_window_bounds :
    (∀ R W a : Nat, ∀ ts : List Nat, List.Chain' (· ≤ ·) ts →
       ((redisTrace W ts).filter
          (fun e => decide (a ≤ e.1) && decide (e.1 < a + W) && decide (e.2 ≤ R))).length
         ≤ R) ∧
    (∀ R a : Nat, ∀ ts : List Nat, 1 ≤ R → List.Chain' (· ≤ ·) ts →
       ((RateLimiterMemoryTrace R ts).filter
          (fun e => decide (e.anchor = a) && e.allowed)).length ≤ R) ∧
    (∀ R w count : Nat, R < count →
       (RateLimiterRedis R w (StoreResult.ok count)).allow = false ∧
       (RateLimiterRedis R w (StoreResult.ok count)).status = 429 ∧
       (RateLimiterRedis R w (StoreResult.ok count)).errBody = "rate_limit_exceeded") := by
  refine ⟨fun R W a ts hs => redis_window_bound R W a ts hs,
          fun R a ts hR hs => memory_epoch_bound R a hR ts hs,
          fun R w count hc => ?_⟩
  simp [RateLimiterRedis, hc]

/-- Witness for `rate_limiter_window_bounds` at a concrete sorted trace
and concrete over-limit count. -/
theorem rate_limiter_window_bounds_witness :
    List.Chain' (· ≤ ·) [0, 30, 45] ∧ (1 : Nat) ≤ 2 ∧ (2 : Nat) < 3 ∧
    ((redisTrace 60 [0, 30, 45]).filter
        (fun e => decide (0 ≤ e.1) && decide (e.1 < 0 + 60) && decide (e.2 ≤ 2))).length
      ≤ 2 ∧
    ((RateLimiterMemoryTrace 2 [0, 30, 45]).filter
        (fun e => decide (e.anchor = 0) && e.allowed)).length ≤ 2 ∧
    (RateLimiterRedis 2 60 (StoreResult.ok 3)).status = 429 :=
  ⟨by simp [List.chain'_cons, List.chain'_singleton], by decide, by decide,
   rate_limiter_window_bounds.1 2 60 0 [0, 30, 45]
     (by simp [List.chain'_cons, List.chain'_singleton]),
   rate_limiter_window_bounds.2.1 2 0 [0, 30, 45] (by decide)
     (by simp [List.chain'_cons, List.chain'_singleton]),
   (rate_limiter_window_bounds.2.2 2 60 3 (by decide)).2.1⟩

/-- C3 (counterexample to the claim as stated): with limit `R = 2` and
the in-memory backend (fixed 60 s window), the request trace at times
0, 60, 61, 61 from one client gets all four requests allowed — in
particular three non-429 responses at times 60, 61, 61, which all lie
inside one rolling window of length 60, exceeding `R = 2`. -/
theorem memory_limiter_exceeds_rolling_window :
    ((RateLimiterMemoryTrace 2 [0, 60, 61, 61]).filter
        (fun e => decide (60 ≤ e.time) && decide (e.time < 60 + 60) && e.allowed)).length
      = 3 ∧ 2 < 3 := by
  constructor
  · decide
  · decide
